import Mathlib

/-!
Verification of the b1.7.3 protocol client (chunk-recording client and offline
viewer).  The Python sources are shallowly embedded: the byte stream of a
socket is a `List Nat` of byte values, `struct` packing/unpacking of signed
big-endian integers is modelled with explicit two's-complement conversions on
`Int`, and the fallible Python operations (reads past the end of the stream,
negative string lengths, out-of-range `struct.pack`, `bytes` indexing errors)
return `Except PErr`.  Strings are modelled as lists of UTF-16 code units
(`List Nat`, each unit a BMP non-surrogate scalar); astral characters, which
Python would encode as surrogate pairs, are outside the model, and decoding a
surrogate unit is modelled as a decode error, as for a lone surrogate.
-/

/-- Errors raised by the embedded Python code: `ConnectionError` from
`recv_exact`, `ValueError` on a negative string length, `struct.error` on an
out-of-range pack, `RuntimeError` on an unknown metadata type, a
`UnicodeDecodeError`, an `IndexError` from `bytes`/`bytearray` indexing, and
`zlib.error` from decompression. -/
inductive PErr where
  | connectionClosed : PErr
  | negativeStringLength : Int → PErr
  | structError : PErr
  | unknownMetadataType : Int → PErr
  | unicodeDecodeError : PErr
  | indexError : PErr
  | zlibError : PErr
deriving DecidableEq, Repr

/-- Two's-complement reading of one byte as Python's `struct.unpack('>b', ...)`. -/
def toSigned8 (b : Nat) : Int :=
  if b < 128 then (b : Int) else (b : Int) - 256

/-- Two's-complement reading of two big-endian bytes, `struct.unpack('>h', ...)`. -/
def toSigned16 (b0 b1 : Nat) : Int :=
  if b0 * 256 + b1 < 32768 then ((b0 * 256 + b1 : Nat) : Int)
  else ((b0 * 256 + b1 : Nat) : Int) - 65536

/-- Two's-complement reading of four big-endian bytes, `struct.unpack('>i', ...)`. -/
def toSigned32 (b0 b1 b2 b3 : Nat) : Int :=
  if b0 * 16777216 + b1 * 65536 + b2 * 256 + b3 < 2147483648 then
    ((b0 * 16777216 + b1 * 65536 + b2 * 256 + b3 : Nat) : Int)
  else ((b0 * 16777216 + b1 * 65536 + b2 * 256 + b3 : Nat) : Int) - 4294967296

/-- Big-endian bytes of a natural number below `2^16`. -/
def natToBytes2 (n : Nat) : List Nat := [n / 256 % 256, n % 256]

/-- Big-endian bytes of a natural number below `2^32`. -/
def natToBytes4 (n : Nat) : List Nat :=
  [n / 16777216 % 256, n / 65536 % 256, n / 256 % 256, n % 256]

/-- Big-endian bytes of a natural number below `2^64`. -/
def natToBytes8 (n : Nat) : List Nat :=
  (natToBytes4 (n / 4294967296)) ++ (natToBytes4 (n % 4294967296))

/-- `struct.pack('>b', v)`: one signed byte; raises `struct.error` out of range. -/
def pack_b (v : Int) : Except PErr (List Nat) :=
  if -128 ≤ v ∧ v ≤ 127 then .ok [(v % 256).toNat] else .error .structError

/-- `struct.pack('>h', v)`: signed 16-bit big-endian; raises `struct.error` out of range. -/
def pack_h (v : Int) : Except PErr (List Nat) :=
  if -32768 ≤ v ∧ v ≤ 32767 then .ok (natToBytes2 (v % 65536).toNat)
  else .error .structError

/-- `struct.pack('>i', v)`: signed 32-bit big-endian; raises `struct.error` out of range. -/
def pack_i (v : Int) : Except PErr (List Nat) :=
  if -2147483648 ≤ v ∧ v ≤ 2147483647 then .ok (natToBytes4 (v % 4294967296).toNat)
  else .error .structError

/-- `struct.pack('>q', v)`: signed 64-bit big-endian; raises `struct.error` out of range. -/
def pack_q (v : Int) : Except PErr (List Nat) :=
  if -9223372036854775808 ≤ v ∧ v ≤ 9223372036854775807 then
    .ok (natToBytes8 (v % 18446744073709551616).toNat)
  else .error .structError

/-- `recv_exact(sock, n)`: take exactly `n` bytes off the stream, or raise
`ConnectionError` when the peer closes first.  Returns the bytes and the rest
of the stream. -/
def recv_exact (s : List Nat) (n : Nat) : Except PErr (List Nat × List Nat) :=
  if n ≤ s.length then .ok (s.take n, s.drop n) else .error .connectionClosed

/-- `struct.unpack('>b', recv_exact(sock, 1))`. -/
def read_b (s : List Nat) : Except PErr (Int × List Nat) :=
  match s with
  | b :: r => .ok (toSigned8 b, r)
  | _ => .error .connectionClosed

/-- `struct.unpack('>h', recv_exact(sock, 2))`. -/
def read_h (s : List Nat) : Except PErr (Int × List Nat) :=
  match s with
  | b0 :: b1 :: r => .ok (toSigned16 b0 b1, r)
  | _ => .error .connectionClosed

/-- `struct.unpack('>i', recv_exact(sock, 4))`. -/
def read_i (s : List Nat) : Except PErr (Int × List Nat) :=
  match s with
  | b0 :: b1 :: b2 :: b3 :: r => .ok (toSigned32 b0 b1 b2 b3, r)
  | _ => .error .connectionClosed

/-- `struct.unpack('>q', recv_exact(sock, 8))`, read as a signed 64-bit value. -/
def read_q (s : List Nat) : Except PErr (Int × List Nat) :=
  match s with
  | b0 :: b1 :: b2 :: b3 :: b4 :: b5 :: b6 :: b7 :: r =>
      let v : Nat := ((((((b0 * 256 + b1) * 256 + b2) * 256 + b3) * 256 + b4) * 256 + b5)
        * 256 + b6) * 256 + b7
      .ok (if v < 9223372036854775808 then (v : Int) else (v : Int) - 18446744073709551616, r)
  | _ => .error .connectionClosed

/-- A string value: its UTF-16 code units.  A valid string consists of BMP
non-surrogate units, exactly the characters Python encodes as two bytes each. -/
def ValidUnits (s : List Nat) : Prop :=
  ∀ u ∈ s, u < 65536 ∧ ¬(55296 ≤ u ∧ u < 57344)

instance : DecidablePred ValidUnits := fun s =>
  decidable_of_iff (∀ u ∈ s, u < 65536 ∧ ¬(55296 ≤ u ∧ u < 57344)) Iff.rfl

/-- `s.encode('utf-16be')` on a list of BMP units: two big-endian bytes per unit. -/
def encodeUnits (s : List Nat) : List Nat :=
  s.flatMap (fun u => [u / 256, u % 256])

/-- `encode_string_utf16(s)`: `struct.pack('>h', len(s)) + s.encode('utf-16be')`.
The length prefix raises `struct.error` when `len(s)` exceeds 32767. -/
def encode_string_utf16 (s : List Nat) : Except PErr (List Nat) :=
  (pack_h (s.length : Int)).map (· ++ encodeUnits s)

/-- `raw.decode('utf-16be')` over an even number of bytes: reassemble units
two bytes at a time; a surrogate unit is a decode error (lone surrogate). -/
def decodeUnits : List Nat → Except PErr (List Nat)
  | [] => .ok []
  | [_] => .error .unicodeDecodeError
  | b0 :: b1 :: r =>
      let u := b0 * 256 + b1
      if 55296 ≤ u ∧ u < 57344 then .error .unicodeDecodeError
      else (decodeUnits r).map (u :: ·)

/-- `read_string_utf16(sock)`: read a signed 16-bit character count, raise
`ValueError` when it is negative, then read `count * 2` bytes and decode them. -/
def read_string_utf16 (s : List Nat) : Except PErr (List Nat × List Nat) :=
  match read_h s with
  | .error e => .error e
  | .ok (len, s1) =>
      if len < 0 then .error (.negativeStringLength len)
      else
        match recv_exact s1 (len.toNat * 2) with
        | .error e => .error e
        | .ok (raw, s2) =>
            match decodeUnits raw with
            | .error e => .error e
            | .ok units => .ok (units, s2)

theorem encodeUnits_length (s : List Nat) : (encodeUnits s).length = 2 * s.length := by
  induction s with
  | nil => rfl
  | cons u t ih => simp [encodeUnits] at ih ⊢; omega

theorem decodeUnits_encodeUnits (s : List Nat) (hs : ValidUnits s) :
    decodeUnits (encodeUnits s) = .ok s := by
  induction s with
  | nil => rfl
  | cons u t ih =>
      have hu := hs u (List.mem_cons_self u t)
      have ht : ValidUnits t := fun v hv => hs v (List.mem_cons_of_mem u hv)
      have hrec : u / 256 * 256 + u % 256 = u := by omega
      simp only [encodeUnits, List.flatMap_cons, List.cons_append, List.nil_append]
      show decodeUnits (u / 256 :: u % 256 :: encodeUnits t) = _
      simp only [decodeUnits, hrec, ih ht]
      rw [if_neg (by omega)]
      rfl

theorem pack_h_of_bounds (v : Int) (h0 : 0 ≤ v) (h1 : v ≤ 32767) :
    pack_h v = .ok (natToBytes2 v.toNat) := by
  have hm : v % 65536 = v := Int.emod_eq_of_lt h0 (by omega)
  rw [pack_h, if_pos ⟨by omega, h1⟩, hm]

theorem toSigned16_natToBytes2 (n : Nat) (h : n ≤ 32767) :
    toSigned16 (n / 256 % 256) (n % 256) = (n : Int) := by
  have h1 : n / 256 % 256 = n / 256 := by omega
  have h2 : n / 256 * 256 + n % 256 = n := by omega
  simp only [toSigned16, natToBytes2, h1, h2]
  rw [if_pos (by omega)]

/-- Round trip of the string codec for any string the encoder accepts: the
decoder recovers the units and leaves the rest of the stream untouched. -/
theorem read_string_encode_string (s : List Nat) (rest : List Nat)
    (hv : ValidUnits s) (hl : s.length ≤ 32767) (bs : List Nat)
    (henc : encode_string_utf16 s = .ok bs) :
    read_string_utf16 (bs ++ rest) = .ok (s, rest) := by
  have hp : pack_h (s.length : Int) = .ok (natToBytes2 s.length) := by
    have := pack_h_of_bounds (s.length : Int) (by omega) (by exact_mod_cast hl)
    simpa using this
  have hbs : bs = natToBytes2 s.length ++ encodeUnits s := by
    simp [encode_string_utf16, hp, Except.map] at henc
    exact henc.symm
  subst hbs
  have hts : toSigned16 (s.length / 256 % 256) (s.length % 256) = (s.length : Int) :=
    toSigned16_natToBytes2 s.length hl
  simp only [read_string_utf16, natToBytes2, List.cons_append, List.nil_append, read_h, hts]
  rw [if_neg (by omega)]
  have hlen : (encodeUnits s).length = 2 * s.length := encodeUnits_length s
  have htake : ((encodeUnits s ++ rest).take (((s.length : Int)).toNat * 2)) = encodeUnits s := by
    rw [Int.toNat_natCast]
    rw [show s.length * 2 = (encodeUnits s).length by omega]
    exact List.take_left _ _
  have hdrop : ((encodeUnits s ++ rest).drop (((s.length : Int)).toNat * 2)) = rest := by
    rw [Int.toNat_natCast]
    rw [show s.length * 2 = (encodeUnits s).length by omega]
    exact List.drop_left _ _
  have hle : ((s.length : Int)).toNat * 2 ≤ (encodeUnits s ++ rest).length := by
    rw [Int.toNat_natCast]
    simp [hlen]
    omega
  simp only [recv_exact, if_pos hle, htake, hdrop]
  simp [decodeUnits_encodeUnits s hv]

/-- C5 (amended): for every valid UTF-16BE string whose length fits the 2-byte
signed character count (0 ≤ L ≤ 32767), decoding the encoder's bytes returns
the string unchanged and leaves the rest of the stream intact; decoding a
stream whose 2-byte length field is negative raises a protocol-desync error
(`ValueError`) instead of being clamped.  (For L > 32767 the encoder itself
raises `struct.error`, see the counterexample.) -/
theorem c5_string_codec_roundtrip :
    (∀ (s rest : List Nat), ValidUnits s → s.length ≤ 32767 →
      ∃ bs, encode_string_utf16 s = .ok bs ∧
        read_string_utf16 (bs ++ rest) = .ok (s, rest)) ∧
    (∀ (b0 b1 : Nat) (s : List Nat), toSigned16 b0 b1 < 0 →
      read_string_utf16 (b0 :: b1 :: s) = .error (.negativeStringLength (toSigned16 b0 b1))) := by
  constructor
  · intro s rest hv hl
    have hp : pack_h (s.length : Int) = .ok (natToBytes2 s.length) := by
      have := pack_h_of_bounds (s.length : Int) (by omega) (by exact_mod_cast hl)
      simpa using this
    refine ⟨natToBytes2 s.length ++ encodeUnits s, ?_, ?_⟩
    · simp [encode_string_utf16, hp, Except.map]
    · exact read_string_encode_string s rest hv hl _ (by simp [encode_string_utf16, hp, Except.map])
  · intro b0 b1 s hneg
    simp [read_string_utf16, read_h, if_pos hneg]

/-- C5 counterexample to the unbounded claim: a valid string of length 32768
cannot be encoded at all — `struct.pack('>h', 32768)` raises `struct.error` —
so encode-then-decode does not return the original string for every L ≥ 0. -/
theorem c5_encode_length_overflow :
    encode_string_utf16 (List.replicate 32768 65) = .error .structError := by
  unfold encode_string_utf16 pack_h
  rw [List.length_replicate]
  rw [if_neg (by omega)]
  rfl

/-- Witness for C5: concrete round trip of the one-character string "H" with a
trailing byte, and a concrete negative length field 0xFFFF. -/
theorem c5_string_codec_roundtrip_witness :
    (ValidUnits [72] ∧ [72].length ≤ 32767 ∧
      (∃ bs, encode_string_utf16 [72] = .ok bs ∧
        read_string_utf16 (bs ++ [9]) = .ok ([72], [9]))) ∧
    (toSigned16 255 255 < 0 ∧
      read_string_utf16 [255, 255, 3] = .error (.negativeStringLength (toSigned16 255 255))) :=
  ⟨⟨by decide, by decide, c5_string_codec_roundtrip.1 [72] [9] (by decide) (by decide)⟩,
   ⟨by decide, c5_string_codec_roundtrip.2 255 255 [3] (by decide)⟩⟩

/-- A decoded entity-metadata value, tagged by the wire type.  The float value
is kept as its raw 32-bit big-endian word: the client only prints it, so its
IEEE-754 reading never influences control flow. -/
inductive MetaValue where
  | byteVal : Int → MetaValue
  | shortVal : Int → MetaValue
  | intVal : Int → MetaValue
  | floatVal : Nat → MetaValue
  | stringVal : List Nat → MetaValue
  | itemVal : Int → Int → Int → MetaValue
  | tripleVal : Int → Int → Int → MetaValue
deriving DecidableEq, Repr

/-- The typed-value branch of `read_metadata`: given the 3-bit type tag,
consume the correspondingly typed value from the stream (the `if/elif` chain
on `data_type`); an unrecognized tag raises `RuntimeError`. -/
def parseMetaValue (dataType : Int) (s : List Nat) : Except PErr (MetaValue × List Nat) :=
  if dataType = 0 then (read_b s).map (fun p => (.byteVal p.1, p.2))
  else if dataType = 1 then (read_h s).map (fun p => (.shortVal p.1, p.2))
  else if dataType = 2 then (read_i s).map (fun p => (.intVal p.1, p.2))
  else if dataType = 3 then
    match s with
    | b0 :: b1 :: b2 :: b3 :: r =>
        .ok (.floatVal (b0 * 16777216 + b1 * 65536 + b2 * 256 + b3), r)
    | _ => .error .connectionClosed
  else if dataType = 4 then (read_string_utf16 s).map (fun p => (.stringVal p.1, p.2))
  else if dataType = 5 then
    match read_h s with
    | .error e => .error e
    | .ok (itemId, s1) =>
        match read_b s1 with
        | .error e => .error e
        | .ok (itemCount, s2) =>
            match read_h s2 with
            | .error e => .error e
            | .ok (itemDamage, s3) => .ok (.itemVal itemId itemCount itemDamage, s3)
  else if dataType = 6 then
    match read_i s with
    | .error e => .error e
    | .ok (x, s1) =>
        match read_i s1 with
        | .error e => .error e
        | .ok (y, s2) =>
            match read_i s2 with
            | .error e => .error e
            | .ok (z, s3) => .ok (.tripleVal x y z, s3)
  else .error (.unknownMetadataType dataType)

theorem recv_exact_length {s : List Nat} {n : Nat} {bs r : List Nat}
    (h : recv_exact s n = .ok (bs, r)) : r.length ≤ s.length := by
  unfold recv_exact at h
  split at h
  · cases h; simp
  · cases h

theorem read_b_length {s : List Nat} {v : Int} {r : List Nat}
    (h : read_b s = .ok (v, r)) : r.length + 1 = s.length := by
  unfold read_b at h
  split at h <;> cases h
  simp

theorem read_h_length {s : List Nat} {v : Int} {r : List Nat}
    (h : read_h s = .ok (v, r)) : r.length + 2 = s.length := by
  unfold read_h at h
  split at h <;> cases h
  simp

theorem read_i_length {s : List Nat} {v : Int} {r : List Nat}
    (h : read_i s = .ok (v, r)) : r.length + 4 = s.length := by
  unfold read_i at h
  split at h <;> cases h
  simp

theorem read_string_utf16_length {s : List Nat} {u r : List Nat}
    (h : read_string_utf16 s = .ok (u, r)) : r.length ≤ s.length := by
  unfold read_string_utf16 at h
  cases hh : read_h s with
  | error e => rw [hh] at h; cases h
  | ok p =>
      obtain ⟨len, s1⟩ := p
      rw [hh] at h
      simp only at h
      split at h
      · cases h
      · cases hr : recv_exact s1 (len.toNat * 2) with
        | error e => rw [hr] at h; cases h
        | ok q =>
            obtain ⟨raw, s2⟩ := q
            rw [hr] at h
            simp only at h
            cases hd : decodeUnits raw with
            | error e => rw [hd] at h; cases h
            | ok units =>
                rw [hd] at h
                cases h
                have h1 := recv_exact_length hr
                have h2 := read_h_length hh
                omega

theorem parseMetaValue_length {dataType : Int} {s : List Nat} {v : MetaValue} {r : List Nat}
    (h : parseMetaValue dataType s = .ok (v, r)) : r.length ≤ s.length := by
  unfold parseMetaValue at h
  split at h
  · cases hb : read_b s with
    | error e => rw [hb] at h; cases h
    | ok p => rw [hb] at h; cases h; have := read_b_length hb; omega
  split at h
  · cases hb : read_h s with
    | error e => rw [hb] at h; cases h
    | ok p => rw [hb] at h; cases h; have := read_h_length hb; omega
  split at h
  · cases hb : read_i s with
    | error e => rw [hb] at h; cases h
    | ok p => rw [hb] at h; cases h; have := read_i_length hb; omega
  split at h
  · split at h <;> cases h
    simp only [List.length_cons]
    omega
  split at h
  · cases hb : read_string_utf16 s with
    | error e => rw [hb] at h; cases h
    | ok p => rw [hb] at h; cases h; have := read_string_utf16_length hb; omega
  split at h
  · cases h1 : read_h s with
    | error e => rw [h1] at h; cases h
    | ok p =>
        obtain ⟨a, s1⟩ := p
        rw [h1] at h
        dsimp only at h
        cases h2 : read_b s1 with
        | error e => rw [h2] at h; cases h
        | ok q =>
            obtain ⟨b, s2⟩ := q
            rw [h2] at h
            dsimp only at h
            cases h3 : read_h s2 with
            | error e => rw [h3] at h; cases h
            | ok w =>
                rw [h3] at h
                dsimp only at h
                cases h
                have := read_h_length h1
                have := read_b_length h2
                have := read_h_length h3
                omega
  split at h
  · cases h1 : read_i s with
    | error e => rw [h1] at h; cases h
    | ok p =>
        obtain ⟨a, s1⟩ := p
        rw [h1] at h
        dsimp only at h
        cases h2 : read_i s1 with
        | error e => rw [h2] at h; cases h
        | ok q =>
            obtain ⟨b, s2⟩ := q
            rw [h2] at h
            dsimp only at h
            cases h3 : read_i s2 with
            | error e => rw [h3] at h; cases h
            | ok w =>
                rw [h3] at h
                dsimp only at h
                cases h
                have := read_i_length h1
                have := read_i_length h2
                have := read_i_length h3
                omega
  · cases h

/-- `read_metadata(sock)`: the self-terminating metadata stream.  Each
iteration reads one signed byte; 0x7F ends the stream, otherwise the top
3 bits (arithmetic shift, so two's complement) pick the type tag and the low
5 bits the index.  Entries are returned in the order the dictionary
assignments `metadata[index] = ...` occur. -/
def read_metadata (s : List Nat) : Except PErr (List (Int × MetaValue) × List Nat) :=
  match s with
  | [] => .error .connectionClosed
  | b :: s1 =>
      let x := toSigned8 b
      if x = 127 then .ok ([], s1)
      else
        let dataType := (x / 32) % 8
        let index := x % 32
        match h : parseMetaValue dataType s1 with
        | .error e => .error e
        | .ok (v, s2) =>
            match read_metadata s2 with
            | .error e => .error e
            | .ok (entries, s3) => .ok ((index, v) :: entries, s3)
termination_by s.length
decreasing_by
  have := parseMetaValue_length h
  simp only [List.length_cons]
  omega

/-- The 3-bit type tag of a metadata field byte: `(x >> 5) & 0x07` computed on
the signed byte, with Python's arithmetic shift and nonnegative bitmask. -/
def metaTag (b : Nat) : Int := ((toSigned8 b) / 32) % 8

/-- The 5-bit slot index of a metadata field byte: `x & 0x1F` on the signed byte. -/
def metaIndex (b : Nat) : Int := (toSigned8 b) % 32

theorem read_metadata_term (rest : List Nat) : read_metadata (127 :: rest) = .ok ([], rest) := by
  rw [read_metadata, if_pos (by decide)]

theorem read_metadata_cons_err {b : Nat} {s1 : List Nat} {e : PErr}
    (hne : toSigned8 b ≠ 127) (hp : parseMetaValue (metaTag b) s1 = .error e) :
    read_metadata (b :: s1) = .error e := by
  rw [read_metadata, if_neg hne]
  dsimp only
  split
  · rename_i e' heq
    rw [metaTag] at hp
    rw [hp] at heq
    cases heq
    rfl
  · rename_i v s2 heq
    rw [metaTag] at hp
    rw [hp] at heq
    cases heq

theorem read_metadata_cons_ok_ok {b : Nat} {s1 s2 s3 : List Nat} {v : MetaValue}
    {es : List (Int × MetaValue)}
    (hne : toSigned8 b ≠ 127) (hp : parseMetaValue (metaTag b) s1 = .ok (v, s2))
    (hr : read_metadata s2 = .ok (es, s3)) :
    read_metadata (b :: s1) = .ok ((metaIndex b, v) :: es, s3) := by
  rw [read_metadata, if_neg hne]
  dsimp only
  split
  · rename_i e' heq
    rw [metaTag] at hp
    rw [hp] at heq
    cases heq
  · rename_i v' s2' heq
    rw [metaTag] at hp
    rw [hp] at heq
    cases heq
    rw [hr, metaIndex]

theorem read_metadata_cons_ok_err {b : Nat} {s1 s2 : List Nat} {v : MetaValue} {e : PErr}
    (hne : toSigned8 b ≠ 127) (hp : parseMetaValue (metaTag b) s1 = .ok (v, s2))
    (hr : read_metadata s2 = .error e) :
    read_metadata (b :: s1) = .error e := by
  rw [read_metadata, if_neg hne]
  dsimp only
  split
  · rename_i e' heq
    rw [metaTag] at hp
    rw [hp] at heq
    cases heq
  · rename_i v' s2' heq
    rw [metaTag] at hp
    rw [hp] at heq
    cases heq
    rw [hr]

theorem read_metadata_step {b : Nat} {s1 s2 : List Nat} {v : MetaValue}
    (hne : toSigned8 b ≠ 127) (hp : parseMetaValue (metaTag b) s1 = .ok (v, s2)) :
    read_metadata (b :: s1) =
      (read_metadata s2).map (fun p => ((metaIndex b, v) :: p.1, p.2)) := by
  cases hr : read_metadata s2 with
  | error e => rw [read_metadata_cons_ok_err hne hp hr]; rfl
  | ok p =>
      obtain ⟨es, s3⟩ := p
      rw [read_metadata_cons_ok_ok hne hp hr]
      rfl

theorem toSigned8_eq_127 {b : Nat} (hb : b < 256) : toSigned8 b = 127 → b = 127 := by
  unfold toSigned8
  split <;> omega

theorem metaTag_ne3_ne127 {b : Nat} (hb : b < 256) {k : Int} (hk : metaTag b = k)
    (h3 : k ≠ 3) : toSigned8 b ≠ 127 := by
  intro hc
  have hb127 : b = 127 := toSigned8_eq_127 hb hc
  subst hb127
  rw [show metaTag 127 = 3 from by decide] at hk
  exact h3 hk.symm

/-- C7: entity-metadata decoding.  A leading signed byte equal to 0x7F ends the
stream; otherwise the top 3 bits select the type tag, and for each supported
tag 0-6 the correspondingly typed value is consumed (byte, short, int, float
word, UTF-16 string, item stack, int triple) and decoding continues on the
remaining bytes; the only unrecognized tag value, 7, always fails fatally with
`RuntimeError` and never skips bytes. -/
theorem c7_read_metadata_dispatch :
    (∀ rest : List Nat, read_metadata (127 :: rest) = .ok ([], rest)) ∧
    (∀ (b : Nat) (rest : List Nat), b < 256 → metaTag b = 7 →
      read_metadata (b :: rest) = .error (.unknownMetadataType 7)) ∧
    (∀ (b v : Nat) (rest : List Nat), b < 256 → metaTag b = 0 →
      read_metadata (b :: v :: rest) =
        (read_metadata rest).map
          (fun p => ((metaIndex b, .byteVal (toSigned8 v)) :: p.1, p.2))) ∧
    (∀ (b v0 v1 : Nat) (rest : List Nat), b < 256 → metaTag b = 1 →
      read_metadata (b :: v0 :: v1 :: rest) =
        (read_metadata rest).map
          (fun p => ((metaIndex b, .shortVal (toSigned16 v0 v1)) :: p.1, p.2))) ∧
    (∀ (b v0 v1 v2 v3 : Nat) (rest : List Nat), b < 256 → metaTag b = 2 →
      read_metadata (b :: v0 :: v1 :: v2 :: v3 :: rest) =
        (read_metadata rest).map
          (fun p => ((metaIndex b, .intVal (toSigned32 v0 v1 v2 v3)) :: p.1, p.2))) ∧
    (∀ (b v0 v1 v2 v3 : Nat) (rest : List Nat), b < 256 → b ≠ 127 → metaTag b = 3 →
      read_metadata (b :: v0 :: v1 :: v2 :: v3 :: rest) =
        (read_metadata rest).map
          (fun p => ((metaIndex b,
            .floatVal (v0 * 16777216 + v1 * 65536 + v2 * 256 + v3)) :: p.1, p.2))) ∧
    (∀ (b : Nat) (sVal bs rest : List Nat), b < 256 → metaTag b = 4 →
      ValidUnits sVal → sVal.length ≤ 32767 → encode_string_utf16 sVal = .ok bs →
      read_metadata (b :: (bs ++ rest)) =
        (read_metadata rest).map
          (fun p => ((metaIndex b, .stringVal sVal) :: p.1, p.2))) ∧
    (∀ (b i0 i1 c0 d0 d1 : Nat) (rest : List Nat), b < 256 → metaTag b = 5 →
      read_metadata (b :: i0 :: i1 :: c0 :: d0 :: d1 :: rest) =
        (read_metadata rest).map
          (fun p => ((metaIndex b,
            .itemVal (toSigned16 i0 i1) (toSigned8 c0) (toSigned16 d0 d1)) :: p.1, p.2))) ∧
    (∀ (b x0 x1 x2 x3 y0 y1 y2 y3 z0 z1 z2 z3 : Nat) (rest : List Nat),
      b < 256 → metaTag b = 6 →
      read_metadata (b :: x0 :: x1 :: x2 :: x3 :: y0 :: y1 :: y2 :: y3 ::
          z0 :: z1 :: z2 :: z3 :: rest) =
        (read_metadata rest).map
          (fun p => ((metaIndex b,
            .tripleVal (toSigned32 x0 x1 x2 x3) (toSigned32 y0 y1 y2 y3)
              (toSigned32 z0 z1 z2 z3)) :: p.1, p.2))) := by
  refine ⟨read_metadata_term, ?_, ?_, ?_, ?_, ?_, ?_, ?_, ?_⟩
  · intro b rest hb ht
    have hne := metaTag_ne3_ne127 hb ht (by decide)
    apply read_metadata_cons_err hne
    rw [ht]
    norm_num [parseMetaValue]
  · intro b v rest hb ht
    have hne := metaTag_ne3_ne127 hb ht (by decide)
    apply read_metadata_step hne
    rw [ht]
    norm_num [parseMetaValue, read_b, Except.map]
  · intro b v0 v1 rest hb ht
    have hne := metaTag_ne3_ne127 hb ht (by decide)
    apply read_metadata_step hne
    rw [ht]
    norm_num [parseMetaValue, read_h, Except.map]
  · intro b v0 v1 v2 v3 rest hb ht
    have hne := metaTag_ne3_ne127 hb ht (by decide)
    apply read_metadata_step hne
    rw [ht]
    norm_num [parseMetaValue, read_i, Except.map]
  · intro b v0 v1 v2 v3 rest hb hb127 ht
    have hne : toSigned8 b ≠ 127 := fun hc => hb127 (toSigned8_eq_127 hb hc)
    apply read_metadata_step hne
    rw [ht]
    norm_num [parseMetaValue]
  · intro b sVal bs rest hb ht hv hl henc
    have hne := metaTag_ne3_ne127 hb ht (by decide)
    apply read_metadata_step hne
    rw [ht]
    have hrs := read_string_encode_string sVal rest hv hl bs henc
    norm_num [parseMetaValue, hrs, Except.map]
  · intro b i0 i1 c0 d0 d1 rest hb ht
    have hne := metaTag_ne3_ne127 hb ht (by decide)
    apply read_metadata_step hne
    rw [ht]
    norm_num [parseMetaValue, read_h, read_b, Except.map]
  · intro b x0 x1 x2 x3 y0 y1 y2 y3 z0 z1 z2 z3 rest hb ht
    have hne := metaTag_ne3_ne127 hb ht (by decide)
    apply read_metadata_step hne
    rw [ht]
    norm_num [parseMetaValue, read_i, Except.map]

/-- Witness for C7: each branch of the dispatch theorem applied at a concrete
field byte — terminator 0x7F, unknown tag byte 0xFF (tag 7), and one byte per
supported tag 0-6 with a concrete payload. -/
theorem c7_read_metadata_dispatch_witness :
    (read_metadata (127 :: [9]) = .ok ([], [9])) ∧
    (255 < 256 ∧ metaTag 255 = 7 ∧
      read_metadata (255 :: [1, 2]) = .error (.unknownMetadataType 7)) ∧
    (0 < 256 ∧ metaTag 0 = 0 ∧
      read_metadata (0 :: 200 :: [127]) =
        (read_metadata [127]).map
          (fun p => ((metaIndex 0, .byteVal (toSigned8 200)) :: p.1, p.2))) ∧
    (33 < 256 ∧ metaTag 33 = 1 ∧
      read_metadata (33 :: 1 :: 2 :: [127]) =
        (read_metadata [127]).map
          (fun p => ((metaIndex 33, .shortVal (toSigned16 1 2)) :: p.1, p.2))) ∧
    (64 < 256 ∧ metaTag 64 = 2 ∧
      read_metadata (64 :: 1 :: 2 :: 3 :: 4 :: [127]) =
        (read_metadata [127]).map
          (fun p => ((metaIndex 64, .intVal (toSigned32 1 2 3 4)) :: p.1, p.2))) ∧
    (96 < 256 ∧ 96 ≠ 127 ∧ metaTag 96 = 3 ∧
      read_metadata (96 :: 63 :: 128 :: 0 :: 0 :: [127]) =
        (read_metadata [127]).map
          (fun p => ((metaIndex 96,
            .floatVal (63 * 16777216 + 128 * 65536 + 0 * 256 + 0)) :: p.1, p.2))) ∧
    (132 < 256 ∧ metaTag 132 = 4 ∧ ValidUnits [65] ∧ [65].length ≤ 32767 ∧
      encode_string_utf16 [65] = .ok [0, 1, 0, 65] ∧
      read_metadata (132 :: ([0, 1, 0, 65] ++ [127])) =
        (read_metadata [127]).map
          (fun p => ((metaIndex 132, .stringVal [65]) :: p.1, p.2))) ∧
    (160 < 256 ∧ metaTag 160 = 5 ∧
      read_metadata (160 :: 0 :: 5 :: 2 :: 0 :: 9 :: [127]) =
        (read_metadata [127]).map
          (fun p => ((metaIndex 160,
            .itemVal (toSigned16 0 5) (toSigned8 2) (toSigned16 0 9)) :: p.1, p.2))) ∧
    (192 < 256 ∧ metaTag 192 = 6 ∧
      read_metadata (192 :: 0 :: 0 :: 0 :: 1 :: 0 :: 0 :: 0 :: 2 ::
          0 :: 0 :: 0 :: 3 :: [127]) =
        (read_metadata [127]).map
          (fun p => ((metaIndex 192,
            .tripleVal (toSigned32 0 0 0 1) (toSigned32 0 0 0 2)
              (toSigned32 0 0 0 3)) :: p.1, p.2))) :=
  ⟨c7_read_metadata_dispatch.1 [9],
   ⟨by decide, by decide, c7_read_metadata_dispatch.2.1 255 [1, 2] (by decide) (by decide)⟩,
   ⟨by decide, by decide, c7_read_metadata_dispatch.2.2.1 0 200 [127] (by decide) (by decide)⟩,
   ⟨by decide, by decide,
     c7_read_metadata_dispatch.2.2.2.1 33 1 2 [127] (by decide) (by decide)⟩,
   ⟨by decide, by decide,
     c7_read_metadata_dispatch.2.2.2.2.1 64 1 2 3 4 [127] (by decide) (by decide)⟩,
   ⟨by decide, by decide, by decide,
     c7_read_metadata_dispatch.2.2.2.2.2.1 96 63 128 0 0 [127] (by decide) (by decide)
       (by decide)⟩,
   ⟨by decide, by decide, by decide, by decide, rfl,
     c7_read_metadata_dispatch.2.2.2.2.2.2.1 132 [65] [0, 1, 0, 65] [127] (by decide)
       (by decide) (by decide) (by decide) rfl⟩,
   ⟨by decide, by decide,
     c7_read_metadata_dispatch.2.2.2.2.2.2.2.1 160 0 5 2 0 9 [127] (by decide) (by decide)⟩,
   ⟨by decide, by decide,
     c7_read_metadata_dispatch.2.2.2.2.2.2.2.2 192 0 0 0 1 0 0 0 2 0 0 0 3 [127]
       (by decide) (by decide)⟩⟩

/-- The protocol version constant sent in the login request. -/
def protocol_version : Int := 14

/-- The login request payload:
`struct.pack('>i', protocol_version) + encode_string_utf16(USERNAME) +
encode_string_utf16(connection_hash) + struct.pack('>q', 0) + struct.pack('>b', 0)`. -/
def login_data (username connection_hash : List Nat) : Except PErr (List Nat) :=
  match pack_i protocol_version with
  | .error e => .error e
  | .ok pv =>
      match encode_string_utf16 username with
      | .error e => .error e
      | .ok u =>
          match encode_string_utf16 connection_hash with
          | .error e => .error e
          | .ok t =>
              match pack_q 0 with
              | .error e => .error e
              | .ok r8 =>
                  match pack_b 0 with
                  | .error e => .error e
                  | .ok r1 => .ok (pv ++ u ++ t ++ r8 ++ r1)

/-- `send_packet(s, 0x01, login_data)`: the full login packet with its id byte. -/
def login_packet (username connection_hash : List Nat) : Except PErr (List Nat) :=
  (login_data username connection_hash).map (0x01 :: ·)

/-- The client's step after the server's handshake echo: read the connection
hash string from the echo body and send the login packet carrying it verbatim. -/
def client_login_after_handshake (username handshakeBody : List Nat) :
    Except PErr (List Nat) :=
  match read_string_utf16 handshakeBody with
  | .error e => .error e
  | .ok (connection_hash, _) => login_packet username connection_hash

/-- Reading the login payload back with the wire layout of packet 0x01:
int32 protocol version, username string, token string, int64, int8. -/
def parseLoginPayload (s : List Nat) :
    Except PErr ((Int × List Nat × List Nat × Int × Int) × List Nat) :=
  match read_i s with
  | .error e => .error e
  | .ok (pv, s1) =>
      match read_string_utf16 s1 with
      | .error e => .error e
      | .ok (username, s2) =>
          match read_string_utf16 s2 with
          | .error e => .error e
          | .ok (token, s3) =>
              match read_q s3 with
              | .error e => .error e
              | .ok (r8, s4) =>
                  match read_b s4 with
                  | .error e => .error e
                  | .ok (r1, s5) => .ok ((pv, username, token, r8, r1), s5)

theorem encode_string_ok (s : List Nat) (hl : s.length ≤ 32767) :
    encode_string_utf16 s = .ok (natToBytes2 s.length ++ encodeUnits s) := by
  have hp : pack_h (s.length : Int) = .ok (natToBytes2 s.length) := by
    have := pack_h_of_bounds (s.length : Int) (by omega) (by exact_mod_cast hl)
    simpa using this
  simp [encode_string_utf16, hp, Except.map]

/-- C9: after the handshake echo delivers a connection token, the client's
login packet has id 0x01 and its payload parses back to protocol version 14,
the username, the token forwarded verbatim, and the reserved int64 and int8
both zero, with no bytes left over. -/
theorem c9_login_packet_contents (username token : List Nat)
    (hvu : ValidUnits username) (hlu : username.length ≤ 32767)
    (hvt : ValidUnits token) (hlt : token.length ≤ 32767)
    (tokenBytes : List Nat) (htok : encode_string_utf16 token = .ok tokenBytes) :
    ∃ payload,
      client_login_after_handshake username tokenBytes = .ok (0x01 :: payload) ∧
      parseLoginPayload payload = .ok ((14, username, token, 0, 0), []) := by
  have husr : encode_string_utf16 username =
      .ok (natToBytes2 username.length ++ encodeUnits username) :=
    encode_string_ok username hlu
  have hrd : read_string_utf16 (tokenBytes ++ []) = .ok (token, []) :=
    read_string_encode_string token [] hvt hlt tokenBytes htok
  rw [List.append_nil] at hrd
  refine ⟨[0, 0, 0, 14] ++ ((natToBytes2 username.length ++ encodeUnits username) ++
    (tokenBytes ++ ([0, 0, 0, 0, 0, 0, 0, 0] ++ [0]))), ?_, ?_⟩
  · unfold client_login_after_handshake
    rw [hrd]
    dsimp only
    unfold login_packet login_data
    have hpv : pack_i protocol_version = .ok [0, 0, 0, 14] := rfl
    have hq0 : pack_q 0 = .ok [0, 0, 0, 0, 0, 0, 0, 0] := rfl
    have hb0 : pack_b 0 = .ok [0] := rfl
    rw [hpv, husr, htok, hq0, hb0]
    dsimp only [Except.map]
    simp [List.append_assoc]
  · have h14 : toSigned32 0 0 0 14 = 14 := by decide
    have hru : read_string_utf16 ((natToBytes2 username.length ++ encodeUnits username) ++
        (tokenBytes ++ ([0, 0, 0, 0, 0, 0, 0, 0] ++ [0]))) =
        .ok (username, tokenBytes ++ ([0, 0, 0, 0, 0, 0, 0, 0] ++ [0])) :=
      read_string_encode_string username _ hvu hlu _ husr
    have hrt : read_string_utf16 (tokenBytes ++ ([0, 0, 0, 0, 0, 0, 0, 0] ++ [0])) =
        .ok (token, [0, 0, 0, 0, 0, 0, 0, 0] ++ [0]) :=
      read_string_encode_string token _ hvt hlt tokenBytes htok
    unfold parseLoginPayload
    simp only [List.cons_append, List.nil_append] at hru hrt ⊢
    simp only [read_i]
    rw [h14]
    rw [hru]
    dsimp only
    rw [hrt]
    dsimp only
    rfl

/-- Witness for C9: username "Bot" and token "abc", as in the spec's scenario. -/
theorem c9_login_packet_contents_witness :
    (ValidUnits [66, 111, 116] ∧ [66, 111, 116].length ≤ 32767 ∧
     ValidUnits [97, 98, 99] ∧ [97, 98, 99].length ≤ 32767 ∧
     encode_string_utf16 [97, 98, 99] = .ok [0, 3, 0, 97, 0, 98, 0, 99]) ∧
    (∃ payload,
      client_login_after_handshake [66, 111, 116] [0, 3, 0, 97, 0, 98, 0, 99] =
        .ok (0x01 :: payload) ∧
      parseLoginPayload payload = .ok ((14, [66, 111, 116], [97, 98, 99], 0, 0), [])) :=
  ⟨⟨by decide, by decide, by decide, by decide, rfl⟩,
   c9_login_packet_contents [66, 111, 116] [97, 98, 99] (by decide) (by decide)
     (by decide) (by decide) [0, 3, 0, 97, 0, 98, 0, 99] rfl⟩

/-- A Python `bytearray` of fixed size: the cell values as a total function
(zero outside the written range never matters because every access is
bounds-checked against `size`, raising `IndexError` exactly as Python does). -/
structure PyByteArray where
  size : Nat
  data : Nat → Nat

/-- `a[i]` on a `bytearray`: `IndexError` past the end. -/
def baGet (a : PyByteArray) (i : Nat) : Except PErr Nat :=
  if i < a.size then .ok (a.data i) else .error .indexError

/-- `a[i] = v` on a `bytearray`, after the index is already known to be in
range (from a successful read of the same index); Python's assignment then
cannot raise. -/
def baUpdate (a : PyByteArray) (i : Nat) (v : Nat) : PyByteArray :=
  ⟨a.size, fun j => if j = i then v else a.data j⟩

/-- `a[i] = v` on a `bytearray` with the bounds check: `IndexError` past the end. -/
def baSet (a : PyByteArray) (i : Nat) (v : Nat) : Except PErr PyByteArray :=
  if i < a.size then .ok (baUpdate a i v) else .error .indexError

/-- `bytearray(n)`: `n` zero bytes. -/
def baZeros (n : Nat) : PyByteArray := ⟨n, fun _ => 0⟩

/-- One chunk column in the recording client: four parallel byte arrays for a
16x128x16 volume.  `blocks` has one byte per voxel; the other three arrays
pack two 4-bit values per byte (half size). -/
structure ChunkCol where
  blocks : PyByteArray
  metadata : PyByteArray
  block_light : PyByteArray
  sky_light : PyByteArray

/-- The zero-filled (air) column the recorder allocates:
`bytearray(16 * 128 * 16)` and three `bytearray(16 * 128 * 16 // 2)`. -/
def freshCol : ChunkCol :=
  { blocks := baZeros (16 * 128 * 16)
    metadata := baZeros (16 * 128 * 16 / 2)
    block_light := baZeros (16 * 128 * 16 / 2)
    sky_light := baZeros (16 * 128 * 16 / 2) }

/-- Chunk-store key `(chunk_x, chunk_z)` in 16-block units. -/
abbrev ChunkKey := Int × Int

/-- `world_chunks` of the recorder: a finite map from keys to columns,
modelled as an association list with Python-dict lookup/assign/delete. -/
abbrev ChunkStore := List (ChunkKey × ChunkCol)

/-- Dictionary lookup `d[k]` / `k in d`. -/
def storeLookup {α : Type} : List (ChunkKey × α) → ChunkKey → Option α
  | [], _ => none
  | (k0, c0) :: rest, k => if k = k0 then some c0 else storeLookup rest k

/-- Dictionary assignment `d[k] = v` (replaces an existing binding). -/
def storeInsert {α : Type} : List (ChunkKey × α) → ChunkKey → α → List (ChunkKey × α)
  | [], k, v => [(k, v)]
  | (k0, c0) :: rest, k, v =>
      if k = k0 then (k0, v) :: rest else (k0, c0) :: storeInsert rest k v

/-- Dictionary deletion `del d[k]`. -/
def storeErase {α : Type} : List (ChunkKey × α) → ChunkKey → List (ChunkKey × α)
  | [], _ => []
  | (k0, c0) :: rest, k =>
      if k = k0 then storeErase rest k else (k0, c0) :: storeErase rest k

/-- `a[i]` on Python `bytes` (the sliced incoming arrays): `IndexError` past
the end. -/
def bget : List Nat → Nat → Except PErr Nat
  | [], _ => .error .indexError
  | a :: _, 0 => .ok a
  | _ :: as, n + 1 => bget as n

/-- Python slice `a[start : stop]` for `0 ≤ start ≤ stop` (clamped at the end). -/
def pySlice (a : List Nat) (start stop : Nat) : List Nat :=
  (a.drop start).take (stop - start)

/-- 0x32 Pre-Chunk in the recording client: mode true binds the key to freshly
allocated zero-filled arrays unconditionally (discarding any previous column);
mode false deletes the column if present. -/
def preChunk0x32_recorder (st : ChunkStore) (x z : Int) (mode : Bool) : ChunkStore :=
  if mode then storeInsert st (x, z) freshCol
  else
    match storeLookup st (x, z) with
    | some _ => storeErase st (x, z)
    | none => st

/-- The offline viewer's chunk store: one 16x256x16 block array per key
(`np.zeros((16, 256, 16), dtype=np.uint16)`, flattened here). -/
abbrev ViewerStore := List (ChunkKey × PyByteArray)

/-- The viewer's freshly allocated all-air chunk. -/
def viewerFresh : PyByteArray := baZeros (16 * 256 * 16)

/-- `process_packet_0x32` of the offline viewer: mode true initializes the key
only when absent (an existing chunk is acknowledged and left untouched); mode
false deletes the chunk if present. -/
def process_packet_0x32 (st : ViewerStore) (x z : Int) (mode : Bool) : ViewerStore :=
  if mode then
    match storeLookup st (x, z) with
    | none => storeInsert st (x, z) viewerFresh
    | some _ => st
  else
    match storeLookup st (x, z) with
    | some _ => storeErase st (x, z)
    | none => st

/-- The nibble-array part of one 0x33 loop body, in source order: read the
current bytes of the column's three nibble arrays at `incoming // 2`, read the
new nibbles from the three incoming (sliced) arrays, then merge into the low
nibble when the linear index is even and the high nibble when odd.  The guard
checks only the metadata slice's length; the reads of the two light slices can
raise `IndexError`. -/
def nibbleWrite (metadata_data block_light_data sky_light_data : List Nat)
    (incoming : Nat) (col : ChunkCol) : ChunkCol × Option PErr :=
  let n := incoming / 2
  if n < metadata_data.length then
    match baGet col.metadata n with
    | .error e => (col, some e)
    | .ok curMeta =>
        match baGet col.block_light n with
        | .error e => (col, some e)
        | .ok curBL =>
            match baGet col.sky_light n with
            | .error e => (col, some e)
            | .ok curSL =>
                match bget metadata_data n with
                | .error e => (col, some e)
                | .ok mdByte =>
                    match bget block_light_data n with
                    | .error e => (col, some e)
                    | .ok blByte =>
                        match bget sky_light_data n with
                        | .error e => (col, some e)
                        | .ok slByte =>
                            let newMeta := (mdByte / 16 ^ (incoming % 2)) % 16
                            let newBL := (blByte / 16 ^ (incoming % 2)) % 16
                            let newSL := (slByte / 16 ^ (incoming % 2)) % 16
                            if incoming % 2 = 0 then
                              ({ col with
                                  metadata :=
                                    baUpdate col.metadata n (curMeta / 16 * 16 + newMeta)
                                  block_light :=
                                    baUpdate col.block_light n (curBL / 16 * 16 + newBL)
                                  sky_light :=
                                    baUpdate col.sky_light n (curSL / 16 * 16 + newSL) },
                                none)
                            else
                              ({ col with
                                  metadata :=
                                    baUpdate col.metadata n (curMeta % 16 + newMeta * 16)
                                  block_light :=
                                    baUpdate col.block_light n (curBL % 16 + newBL * 16)
                                  sky_light :=
                                    baUpdate col.sky_light n (curSL % 16 + newSL * 16) },
                                none)
  else (col, none)

/-- One iteration of the recorder's 0x33 triple loop for offsets
`(lx, lz, ly)`: compute the chunk-local coordinates from the start coordinates
reduced by `& 15` / `& 127`, skip the cell when they leave the 16x128x16
bounds, otherwise write the block byte at
`chunk_local_y + chunk_local_z * 128 + chunk_local_x * 128 * 16` (when the
incoming index is inside the block-type slice) and then the three nibbles. -/
def mapChunkCell (x y_coord z : Int) (actual_sy actual_sz : Nat)
    (block_types_data metadata_data block_light_data sky_light_data : List Nat)
    (col : ChunkCol) (cell : Nat × Nat × Nat) : ChunkCol × Option PErr :=
  match cell with
  | (lx, lz, ly) =>
      let chunk_local_x : Int := x % 16 + lx
      let chunk_local_y : Int := y_coord % 128 + ly
      let chunk_local_z : Int := z % 16 + lz
      if ¬(0 ≤ chunk_local_x ∧ chunk_local_x < 16 ∧ 0 ≤ chunk_local_y ∧
            chunk_local_y < 128 ∧ 0 ≤ chunk_local_z ∧ chunk_local_z < 16) then
        (col, none)
      else
        let chunk_index : Nat :=
          (chunk_local_y + chunk_local_z * 128 + chunk_local_x * 128 * 16).toNat
        let incoming : Nat := ly + lz * actual_sy + lx * actual_sy * actual_sz
        match
          (if h : incoming < block_types_data.length then
            match baSet col.blocks chunk_index (block_types_data.get ⟨incoming, h⟩) with
            | .error e => (col, some e)
            | .ok bl => ({ col with blocks := bl }, none)
          else (col, none)) with
        | (c, some e) => (c, some e)
        | (col1, none) =>
            nibbleWrite metadata_data block_light_data sky_light_data incoming col1

/-- The recorder's 0x33 iteration order: `lx` outer, `lz` middle, `ly` inner
(`range` over a nonpositive actual size is empty). -/
def regionCells (actual_sx actual_sz actual_sy : Nat) : List (Nat × Nat × Nat) :=
  (List.range actual_sx).flatMap fun lx =>
    (List.range actual_sz).flatMap fun lz =>
      (List.range actual_sy).map fun ly => (lx, lz, ly)

/-- Run the loop bodies in order; an exception stops the loop, keeping every
write already applied (the column is mutated in place in the source). -/
def runCells (f : ChunkCol → (Nat × Nat × Nat) → ChunkCol × Option PErr) :
    ChunkCol → List (Nat × Nat × Nat) → ChunkCol × Option PErr
  | c, [] => (c, none)
  | c, cell :: rest =>
      match f c cell with
      | (c', none) => runCells f c' rest
      | (c', some e) => (c', some e)

/-- The recorder's 0x33 Map Chunk unpack over already-decompressed bytes:
actual extents are the size deltas plus one; the single target key is
`(x >> 4, z >> 4)` from the sub-region's start; the column is lazily
allocated when absent; the four arrays are sliced with `min(..., len)`
clamping; then the triple loop runs.  Returns the updated store and the
exception that aborted the loop, if any (the partially updated column stays
in the store, as the source mutates it in place). -/
def unpack0x33 (x y_coord z size_x size_y size_z : Int)
    (uncompressed : List Nat) (st : ChunkStore) : ChunkStore × Option PErr :=
  let actual_sx := (size_x + 1).toNat
  let actual_sy := (size_y + 1).toNat
  let actual_sz := (size_z + 1).toNat
  let chunk_x := x / 16
  let chunk_z := z / 16
  let block_type_len := actual_sx * actual_sy * actual_sz
  let metadata_len := block_type_len / 2
  let metadata_start := block_type_len
  let block_light_start := metadata_start + metadata_len
  let sky_light_start := block_light_start + metadata_len
  let n := uncompressed.length
  let block_types_data := pySlice uncompressed 0 (min block_type_len n)
  let metadata_data := pySlice uncompressed metadata_start (min (metadata_start + metadata_len) n)
  let block_light_data :=
    pySlice uncompressed block_light_start (min (block_light_start + metadata_len) n)
  let sky_light_data :=
    pySlice uncompressed sky_light_start (min (sky_light_start + metadata_len) n)
  let col0 := (storeLookup st (chunk_x, chunk_z)).getD freshCol
  let res := runCells
    (mapChunkCell x y_coord z actual_sy actual_sz
      block_types_data metadata_data block_light_data sky_light_data)
    col0 (regionCells actual_sx actual_sz actual_sy)
  (storeInsert st (chunk_x, chunk_z) res.1, res.2)

/-- Loop control of the dispatcher after one packet. -/
inductive LoopSignal where
  | continueLoop : LoopSignal
  | breakLoop : LoopSignal
deriving DecidableEq, Repr

/-- The whole 0x33 branch of `handle_server`: decompression failure
(`zlib.error`), `IndexError` and any other exception during the unpack are
caught and logged, and the read loop continues in every case. -/
def handle_0x33 (decompressed : Except PErr (List Nat))
    (x y_coord z size_x size_y size_z : Int) (st : ChunkStore) :
    ChunkStore × LoopSignal :=
  match decompressed with
  | .error _ => (st, .continueLoop)
  | .ok data =>
      ((unpack0x33 x y_coord z size_x size_y size_z data st).1, .continueLoop)

/-- The decoded fields of one 0x35 Block Change packet as the recorder logs
them (`'>ibi'` then `'>bb'`). -/
structure BlockChangeRecord where
  block_x : Int
  block_y : Int
  block_z : Int
  block_type : Int
  block_metadata : Int
deriving DecidableEq, Repr

/-- The recorder's 0x35 Block Change branch: decode the fields and append them
to the chunk log; the in-memory chunk store is not touched. -/
def handle_0x35 (body : List Nat) (st : ChunkStore) :
    Except PErr (ChunkStore × BlockChangeRecord) :=
  match read_i body with
  | .error e => .error e
  | .ok (x, s1) =>
      match read_b s1 with
      | .error e => .error e
      | .ok (y, s2) =>
          match read_i s2 with
          | .error e => .error e
          | .ok (z, s3) =>
              match read_b s3 with
              | .error e => .error e
              | .ok (block_type, s4) =>
                  match read_b s4 with
                  | .error e => .error e
                  | .ok (block_metadata, _) =>
                      .ok (st,
                        { block_x := x, block_y := y, block_z := z
                          block_type := block_type, block_metadata := block_metadata })

/-- The decoded fields of one 0x34 Multi Block Change packet as the recorder
logs them (raw coordinate/type/metadata byte arrays, base64 in the file). -/
structure MultiBlockChangeRecord where
  chunk_x : Int
  chunk_z : Int
  num_changes : Int
  coords_data : List Nat
  types_data : List Nat
  metadata_array_data : List Nat
deriving DecidableEq, Repr

/-- The recorder's 0x34 Multi Block Change branch: decode the chunk key, the
change count and the three raw arrays, and append them to the chunk log; the
in-memory chunk store is not touched.  (A negative count makes `recv_exact`
read zero bytes, as in Python.) -/
def handle_0x34 (body : List Nat) (st : ChunkStore) :
    Except PErr (ChunkStore × MultiBlockChangeRecord) :=
  match read_i body with
  | .error e => .error e
  | .ok (chunk_x, s1) =>
      match read_i s1 with
      | .error e => .error e
      | .ok (chunk_z, s2) =>
          match read_h s2 with
          | .error e => .error e
          | .ok (array_size, s3) =>
              match recv_exact s3 (array_size * 2).toNat with
              | .error e => .error e
              | .ok (coords_data, s4) =>
                  match recv_exact s4 (array_size * 1).toNat with
                  | .error e => .error e
                  | .ok (types_data, s5) =>
                      match recv_exact s5 (array_size * 1).toNat with
                      | .error e => .error e
                      | .ok (metadata_array_data, _) =>
                          .ok (st,
                            { chunk_x := chunk_x, chunk_z := chunk_z
                              num_changes := array_size, coords_data := coords_data
                              types_data := types_data
                              metadata_array_data := metadata_array_data })

/-- The block value the spec expects at absolute coordinates: look up the
column keyed by floor division of x and z by 16 and read the byte at the
local (modulo-reduced) offset. -/
def specStoredBlock (st : ChunkStore) (x y z : Int) : Option Nat :=
  match storeLookup st (x / 16, z / 16) with
  | none => none
  | some col =>
      match baGet col.blocks (y % 128 + z % 16 * 128 + x % 16 * 2048).toNat with
      | .ok v => some v
      | .error _ => none

theorem storeLookup_insert_self {α : Type} (st : List (ChunkKey × α)) (k : ChunkKey) (v : α) :
    storeLookup (storeInsert st k v) k = some v := by
  induction st with
  | nil => simp [storeInsert, storeLookup]
  | cons p rest ih =>
      obtain ⟨k0, c0⟩ := p
      by_cases hk : k = k0
      · simp [storeInsert, storeLookup, hk]
      · simp [storeInsert, storeLookup, hk, ih]

theorem storeLookup_insert_ne {α : Type} (st : List (ChunkKey × α)) (k k' : ChunkKey)
    (v : α) (h : k' ≠ k) :
    storeLookup (storeInsert st k v) k' = storeLookup st k' := by
  induction st with
  | nil => simp [storeInsert, storeLookup, h]
  | cons p rest ih =>
      obtain ⟨k0, c0⟩ := p
      by_cases hk : k = k0
      · subst hk
        simp [storeInsert, storeLookup, h]
      · by_cases hk' : k' = k0
        · simp [storeInsert, storeLookup, hk, hk']
        · simp [storeInsert, storeLookup, hk, hk', ih]

/-- C6: unpacking the 2x2x2 sub-region with block-type bytes [1..8] anchored at
world origin succeeds, and the chunk (0,0) column holds block-type 1 at local
(0,0,0) and block-type 8 at local (1,1,1) — index 1 + 1*128 + 1*2048 = 2177 —
matching the (x outer, z middle, y inner) linear order. -/
theorem c6_known_region_unpack :
    (unpack0x33 0 0 0 1 1 1 ([1, 2, 3, 4, 5, 6, 7, 8] ++ List.replicate 12 0) []).2 =
      none ∧
    specStoredBlock
      (unpack0x33 0 0 0 1 1 1 ([1, 2, 3, 4, 5, 6, 7, 8] ++ List.replicate 12 0) []).1
      0 0 0 = some 1 ∧
    specStoredBlock
      (unpack0x33 0 0 0 1 1 1 ([1, 2, 3, 4, 5, 6, 7, 8] ++ List.replicate 12 0) []).1
      1 1 1 = some 8 ∧
    (storeLookup
      (unpack0x33 0 0 0 1 1 1 ([1, 2, 3, 4, 5, 6, 7, 8] ++ List.replicate 12 0) []).1
      (0, 0)).map (fun c => baGet c.blocks 2177) = some (.ok 8) :=
  ⟨rfl, rfl, rfl, rfl⟩

/-- C4 at the failing input: a 1x2x1 sub-region (size deltas (0,1,0)) at the
origin whose decompressed payload has 4 bytes instead of the expected
1*2*1*2.5 = 5.  The metadata-slice guard passes (`metadata_data = [3]`), but
the sky-light slice is empty, so `sky_light_data[0]` raises `IndexError`: the
unpack reads past the end of that nibble array and abandons the packet
mid-parse (the block byte was already written).  The exception is caught, so
the read loop continues — and a decompression failure is likewise caught. -/
theorem c4_truncated_payload_index_error :
    (unpack0x33 0 0 0 0 1 0 [1, 2, 3, 4] []).2 = some .indexError ∧
    (storeLookup (unpack0x33 0 0 0 0 1 0 [1, 2, 3, 4] []).1 (0, 0)).map
      (fun c => baGet c.blocks 0) = some (.ok 1) ∧
    handle_0x33 (.ok [1, 2, 3, 4]) 0 0 0 0 1 0 [] =
      ((unpack0x33 0 0 0 0 1 0 [1, 2, 3, 4] []).1, .continueLoop) ∧
    handle_0x33 (.error .zlibError) 0 0 0 0 1 0 [] = ([], .continueLoop) :=
  ⟨rfl, rfl, rfl, rfl⟩

/-- C2 counterexample: the recording client receives a 0x35 Block Change
carrying block type 5 at absolute (1, 2, 3) while chunk (0,0) is loaded and
all-air; handling succeeds, yet the stored block at (1, 2, 3) is still 0, not
5 — the handler only logs, it does not overwrite the chunk store. -/
theorem c2_block_change_not_applied :
    handle_0x35 ([0, 0, 0, 1] ++ [2] ++ [0, 0, 0, 3] ++ [5] ++ [1]) [((0, 0), freshCol)] =
      .ok ([((0, 0), freshCol)],
        { block_x := 1, block_y := 2, block_z := 3, block_type := 5,
          block_metadata := 1 }) ∧
    specStoredBlock [((0, 0), freshCol)] 1 2 3 = some 0 ∧ (0 : Nat) ≠ 5 :=
  ⟨rfl, rfl, by decide⟩

/-- C2 (amended): the recording client decodes 0x34 and 0x35 packets and
appends their carried values to the chunk log without any decompression, but
never modifies the in-memory chunk store: whenever handling succeeds, the
store is returned unchanged, and the 0x35 record carries exactly the decoded
coordinates, block type and metadata. -/
theorem c2_recorder_logs_without_applying :
    (∀ (st : ChunkStore) (a b c d e f g h i j k : Nat),
      handle_0x35 [a, b, c, d, e, f, g, h, i, j, k] st =
        .ok (st,
          { block_x := toSigned32 a b c d, block_y := toSigned8 e
            block_z := toSigned32 f g h i, block_type := toSigned8 j
            block_metadata := toSigned8 k })) ∧
    (∀ (body : List Nat) (st st' : ChunkStore) (rec : MultiBlockChangeRecord),
      handle_0x34 body st = .ok (st', rec) → st' = st) ∧
    (∀ (body : List Nat) (st st' : ChunkStore) (rec : BlockChangeRecord),
      handle_0x35 body st = .ok (st', rec) → st' = st) := by
  refine ⟨fun st a b c d e f g h i j k => rfl, ?_, ?_⟩
  · intro body st st' rec h
    unfold handle_0x34 at h
    repeat' split at h
    all_goals cases h
    rfl
  · intro body st st' rec h
    unfold handle_0x35 at h
    repeat' split at h
    all_goals cases h
    rfl

/-- Witness for C2 (amended): the concrete 0x35 body from the counterexample
and a concrete 0x34 body with a single change. -/
theorem c2_recorder_logs_without_applying_witness :
    handle_0x35 [0, 0, 0, 1, 2, 0, 0, 0, 3, 5, 1] [((0, 0), freshCol)] =
      .ok ([((0, 0), freshCol)],
        { block_x := toSigned32 0 0 0 1, block_y := toSigned8 2
          block_z := toSigned32 0 0 0 3, block_type := toSigned8 5
          block_metadata := toSigned8 1 }) ∧
    ([((0, 0), freshCol)] : ChunkStore) = [((0, 0), freshCol)] :=
  ⟨c2_recorder_logs_without_applying.1 [((0, 0), freshCol)] 0 0 0 1 2 0 0 0 3 5 1,
   c2_recorder_logs_without_applying.2.2 [0, 0, 0, 1, 2, 0, 0, 0, 3, 5, 1]
     [((0, 0), freshCol)] [((0, 0), freshCol)]
     { block_x := 1, block_y := 2, block_z := 3, block_type := 5, block_metadata := 1 }
     rfl⟩

/-- C10: a mode-true 0x32 in the recording client always leaves the key bound
to freshly allocated zero-filled arrays of the declared sizes, even when a
populated column already existed (its contents are discarded); the offline
viewer, by contrast, leaves an already-existing chunk untouched on a repeated
mode-true 0x32. -/
theorem c10_prechunk_reset_vs_viewer :
    (∀ (st : ChunkStore) (x z : Int),
      storeLookup (preChunk0x32_recorder st x z true) (x, z) = some freshCol) ∧
    (freshCol.blocks.size = 16 * 128 * 16 ∧
     freshCol.metadata.size = 16 * 128 * 16 / 2 ∧
     freshCol.block_light.size = 16 * 128 * 16 / 2 ∧
     freshCol.sky_light.size = 16 * 128 * 16 / 2 ∧
     (∀ i, freshCol.blocks.data i = 0) ∧ (∀ i, freshCol.metadata.data i = 0) ∧
     (∀ i, freshCol.block_light.data i = 0) ∧ (∀ i, freshCol.sky_light.data i = 0)) ∧
    (∀ (vst : ViewerStore) (x z : Int) (prior : PyByteArray),
      storeLookup vst (x, z) = some prior → process_packet_0x32 vst x z true = vst) := by
  refine ⟨?_, ⟨rfl, rfl, rfl, rfl, fun _ => rfl, fun _ => rfl, fun _ => rfl, fun _ => rfl⟩, ?_⟩
  · intro st x z
    unfold preChunk0x32_recorder
    simp [storeLookup_insert_self]
  · intro vst x z prior hl
    unfold process_packet_0x32
    rw [hl]
    rfl

/-- Witness for C10: the recorder store already holds a populated column at
(0,0) — `freshCol` with block 0 overwritten to 9 — and a mode-true 0x32 still
rebinds the key to the all-zero `freshCol`; the viewer with an existing chunk
at (0,0) is left unchanged. -/
theorem c10_prechunk_reset_vs_viewer_witness :
    storeLookup
      (preChunk0x32_recorder
        [((0, 0), { freshCol with blocks := baUpdate freshCol.blocks 0 9 })] 0 0 true)
      (0, 0) = some freshCol ∧
    storeLookup [((0, 0), viewerFresh)] (0, 0) = some viewerFresh ∧
    process_packet_0x32 [((0, 0), viewerFresh)] 0 0 true = [((0, 0), viewerFresh)] :=
  ⟨c10_prechunk_reset_vs_viewer.1
      [((0, 0), { freshCol with blocks := baUpdate freshCol.blocks 0 9 })] 0 0,
   rfl,
   c10_prechunk_reset_vs_viewer.2.2 [((0, 0), viewerFresh)] 0 0 viewerFresh rfl⟩

/-- C1 counterexample: a 2x1x1 sub-region starting at (15, 0, 0) crosses the
chunk boundary.  Its second block has absolute x = 16, so integer division
puts it in chunk (1, 0) at local (0, 0, 0); yet after unpacking (which
completes without error) no entry exists at key (1, 0): the crossing block was
dropped, not translated to its per-block chunk key.  The whole update went to
the single start-derived key (0, 0), where block 7 sits at local (15, 0, 0). -/
theorem c1_boundary_crossing_dropped :
    (unpack0x33 15 0 0 1 0 0 [7, 9, 0, 0, 0] []).2 = none ∧
    storeLookup (unpack0x33 15 0 0 1 0 0 [7, 9, 0, 0, 0] []).1 (1, 0) = none ∧
    specStoredBlock (unpack0x33 15 0 0 1 0 0 [7, 9, 0, 0, 0] []).1 16 0 0 = none ∧
    specStoredBlock (unpack0x33 15 0 0 1 0 0 [7, 9, 0, 0, 0] []).1 15 0 0 = some 7 :=
  ⟨rfl, rfl, rfl, rfl⟩

/-- A block-array index inside the clipped footprint of a 0x33 sub-region:
some in-bounds cell of the region maps to it. -/
def InFootprint (x y_coord z : Int) (asx asy asz : Nat) (i : Nat) : Prop :=
  ∃ lx, lx < asx ∧ ∃ lz, lz < asz ∧ ∃ ly, ly < asy ∧
    x % 16 + (lx : Int) < 16 ∧ y_coord % 128 + (ly : Int) < 128 ∧
    z % 16 + (lz : Int) < 16 ∧
    (i : Int) = (y_coord % 128 + ly) + (z % 16 + lz) * 128 +
      (x % 16 + lx) * 128 * 16

theorem baUpdate_size (a : PyByteArray) (i v : Nat) : (baUpdate a i v).size = a.size := rfl

theorem baSet_ok {a : PyByteArray} {i v : Nat} {b : PyByteArray}
    (h : baSet a i v = .ok b) : b = baUpdate a i v ∧ i < a.size := by
  unfold baSet at h
  split at h
  · cases h; exact ⟨rfl, by assumption⟩
  · cases h

theorem baSet_ok_of_lt {a : PyByteArray} {i : Nat} (v : Nat) (h : i < a.size) :
    baSet a i v = .ok (baUpdate a i v) := by
  unfold baSet
  rw [if_pos h]

theorem regionCells_mem {asx asz asy : Nat} {cell : Nat × Nat × Nat} :
    cell ∈ regionCells asx asz asy ↔
      cell.1 < asx ∧ cell.2.1 < asz ∧ cell.2.2 < asy := by
  obtain ⟨lx, lz, ly⟩ := cell
  simp only [regionCells, List.mem_flatMap, List.mem_map, List.mem_range]
  constructor
  · rintro ⟨a, ha, a1, ha1, ⟨a2, ha2, heq⟩⟩
    cases heq
    exact ⟨ha, ha1, ha2⟩
  · rintro ⟨h1, h2, h3⟩
    exact ⟨lx, h1, lz, h2, ly, h3, rfl⟩

theorem nibbleWrite_blocks (md bl sl : List Nat) (inc : Nat) (col : ChunkCol) :
    ((nibbleWrite md bl sl inc col).1).blocks = col.blocks := by
  unfold nibbleWrite
  dsimp only
  repeat' split
  all_goals rfl

theorem nibbleWrite_sizes (md bl sl : List Nat) (inc : Nat) (col : ChunkCol) :
    ((nibbleWrite md bl sl inc col).1).metadata.size = col.metadata.size ∧
    ((nibbleWrite md bl sl inc col).1).block_light.size = col.block_light.size ∧
    ((nibbleWrite md bl sl inc col).1).sky_light.size = col.sky_light.size := by
  unfold nibbleWrite
  dsimp only
  repeat' split
  all_goals exact ⟨rfl, rfl, rfl⟩

theorem mapChunkCell_sizes (x y_coord z : Int) (asy asz : Nat)
    (bt md bl sl : List Nat) (col : ChunkCol) (cell : Nat × Nat × Nat) :
    ((mapChunkCell x y_coord z asy asz bt md bl sl col cell).1).blocks.size =
      col.blocks.size ∧
    ((mapChunkCell x y_coord z asy asz bt md bl sl col cell).1).metadata.size =
      col.metadata.size ∧
    ((mapChunkCell x y_coord z asy asz bt md bl sl col cell).1).block_light.size =
      col.block_light.size ∧
    ((mapChunkCell x y_coord z asy asz bt md bl sl col cell).1).sky_light.size =
      col.sky_light.size := by
  obtain ⟨lx, lz, ly⟩ := cell
  unfold mapChunkCell
  dsimp only
  split
  · exact ⟨rfl, rfl, rfl, rfl⟩
  · split
    · rename_i c e heq
      split at heq
      · split at heq
        · cases heq
          exact ⟨rfl, rfl, rfl, rfl⟩
        · cases heq
      · cases heq
    · rename_i col1 heq
      have hnb := nibbleWrite_blocks md bl sl
        (ly + lz * asy + lx * asy * asz) col1
      have hns := nibbleWrite_sizes md bl sl
        (ly + lz * asy + lx * asy * asz) col1
      split at heq
      · split at heq
        · cases heq
        · rename_i bl' heq2
          cases heq
          obtain ⟨hbl, _⟩ := baSet_ok heq2
          subst hbl
          exact ⟨by rw [hnb]; rfl, hns.1, hns.2.1, hns.2.2⟩
      · cases heq
        exact ⟨by rw [hnb], hns.1, hns.2.1, hns.2.2⟩

theorem mapChunkCell_data_or (x y_coord z : Int) (asy asz : Nat)
    (bt md bl sl : List Nat) (col : ChunkCol) (lx lz ly i : Nat) :
    ((mapChunkCell x y_coord z asy asz bt md bl sl col (lx, lz, ly)).1).blocks.data i =
      col.blocks.data i ∨
    (0 ≤ x % 16 + (lx : Int) ∧ x % 16 + (lx : Int) < 16 ∧
     0 ≤ y_coord % 128 + (ly : Int) ∧ y_coord % 128 + (ly : Int) < 128 ∧
     0 ≤ z % 16 + (lz : Int) ∧ z % 16 + (lz : Int) < 16 ∧
     (i : Int) = (y_coord % 128 + ly) + (z % 16 + lz) * 128 +
       (x % 16 + lx) * 128 * 16 ∧
     ∃ h : ly + lz * asy + lx * asy * asz < bt.length,
       ((mapChunkCell x y_coord z asy asz bt md bl sl col (lx, lz, ly)).1).blocks.data i =
         bt.get ⟨ly + lz * asy + lx * asy * asz, h⟩) := by
  unfold mapChunkCell
  dsimp only
  split
  · exact Or.inl rfl
  · rename_i hg
    rw [not_not] at hg
    obtain ⟨h1, h2, h3, h4, h5, h6⟩ := hg
    split
    · rename_i c e heq
      split at heq
      · split at heq
        · cases heq
          exact Or.inl rfl
        · cases heq
      · cases heq
    · rename_i col1 heq
      rw [nibbleWrite_blocks]
      split at heq
      · rename_i hlen
        split at heq
        · cases heq
        · rename_i bl' heq2
          cases heq
          obtain ⟨hbl, _⟩ := baSet_ok heq2
          subst hbl
          show (baUpdate col.blocks _ _).data i = _ ∨ _
          unfold baUpdate
          dsimp only
          by_cases hi :
            i = ((y_coord % 128 + ly) + (z % 16 + lz) * 128 +
              (x % 16 + lx) * 128 * 16).toNat
          · refine Or.inr ⟨h1, h2, h3, h4, h5, h6, ?_, hlen, ?_⟩
            · rw [hi]
              rw [Int.toNat_of_nonneg (by omega)]
            · rw [if_pos hi]
          · rw [if_neg hi]
            exact Or.inl rfl
      · cases heq
        exact Or.inl rfl

theorem mapChunkCell_writes (x y_coord z : Int) (asy asz : Nat)
    (bt md bl sl : List Nat) (col : ChunkCol) (lx lz ly : Nat)
    (h2 : x % 16 + (lx : Int) < 16) (h4 : y_coord % 128 + (ly : Int) < 128)
    (h6 : z % 16 + (lz : Int) < 16)
    (hlen : ly + lz * asy + lx * asy * asz < bt.length)
    (hsz : ((y_coord % 128 + ly) + (z % 16 + lz) * 128 +
      (x % 16 + lx) * 128 * 16).toNat < col.blocks.size) :
    ((mapChunkCell x y_coord z asy asz bt md bl sl col (lx, lz, ly)).1).blocks.data
        ((y_coord % 128 + ly) + (z % 16 + lz) * 128 +
          (x % 16 + lx) * 128 * 16).toNat =
      bt.get ⟨ly + lz * asy + lx * asy * asz, hlen⟩ := by
  have h1 : (0 : Int) ≤ x % 16 + lx := by
    have := Int.emod_nonneg x (show (16 : Int) ≠ 0 by norm_num)
    omega
  have h3 : (0 : Int) ≤ y_coord % 128 + ly := by
    have := Int.emod_nonneg y_coord (show (128 : Int) ≠ 0 by norm_num)
    omega
  have h5 : (0 : Int) ≤ z % 16 + lz := by
    have := Int.emod_nonneg z (show (16 : Int) ≠ 0 by norm_num)
    omega
  unfold mapChunkCell
  dsimp only
  rw [if_neg (not_not_intro ⟨h1, h2, h3, h4, h5, h6⟩)]
  rw [dif_pos hlen]
  rw [baSet_ok_of_lt _ hsz]
  dsimp only
  rw [nibbleWrite_blocks]
  show (baUpdate col.blocks _ _).data _ = _
  unfold baUpdate
  dsimp only
  rw [if_pos rfl]

theorem runCells_preserve {α : Type} (f : ChunkCol → (Nat × Nat × Nat) → ChunkCol × Option PErr)
    (g : ChunkCol → α) (cells : List (Nat × Nat × Nat))
    (hf : ∀ c cell, cell ∈ cells → g ((f c cell).1) = g c) :
    ∀ c, g ((runCells f c cells).1) = g c := by
  induction cells with
  | nil => intro c; rfl
  | cons hd tl ih =>
      intro c
      unfold runCells
      cases hfc : f c hd with
      | mk c' err =>
          have hstep : g c' = g c := by
            have := hf c hd (List.mem_cons_self hd tl)
            rw [hfc] at this
            exact this
          cases err with
          | none =>
              dsimp only
              rw [ih (fun c cell hm => hf c cell (List.mem_cons_of_mem hd hm)) c', hstep]
          | some e =>
              dsimp only
              exact hstep

theorem runCells_keep (f : ChunkCol → (Nat × Nat × Nat) → ChunkCol × Option PErr)
    (cells : List (Nat × Nat × Nat)) (i v : Nat)
    (Hother : ∀ c cell, cell ∈ cells →
      ((f c cell).1).blocks.data i = c.blocks.data i ∨ ((f c cell).1).blocks.data i = v) :
    ∀ c, c.blocks.data i = v → ((runCells f c cells).1).blocks.data i = v := by
  induction cells with
  | nil => intro c hc; exact hc
  | cons hd tl ih =>
      intro c hc
      unfold runCells
      cases hfc : f c hd with
      | mk c' err =>
          have hstep : c'.blocks.data i = v := by
            have := Hother c hd (List.mem_cons_self hd tl)
            rw [hfc] at this
            rcases this with h | h
            · dsimp only at h
              rw [h]
              exact hc
            · dsimp only at h
              exact h
          cases err with
          | none =>
              dsimp only
              exact ih (fun c cell hm => Hother c cell (List.mem_cons_of_mem hd hm)) c' hstep
          | some e =>
              dsimp only
              exact hstep

theorem runCells_write (f : ChunkCol → (Nat × Nat × Nat) → ChunkCol × Option PErr)
    (cells : List (Nat × Nat × Nat)) (i v L : Nat)
    (hsize : ∀ c cell, cell ∈ cells → ((f c cell).1).blocks.size = c.blocks.size)
    (Hother : ∀ c cell, cell ∈ cells →
      ((f c cell).1).blocks.data i = c.blocks.data i ∨ ((f c cell).1).blocks.data i = v)
    (cell₀ : Nat × Nat × Nat) (hmem : cell₀ ∈ cells)
    (Hwrite : ∀ c : ChunkCol, c.blocks.size = L → ((f c cell₀).1).blocks.data i = v) :
    ∀ c₀ : ChunkCol, c₀.blocks.size = L → (runCells f c₀ cells).2 = none →
      ((runCells f c₀ cells).1).blocks.data i = v := by
  induction cells with
  | nil => cases hmem
  | cons hd tl ih =>
      intro c₀ hL hok
      unfold runCells at hok ⊢
      cases hfc : f c₀ hd with
      | mk c' err =>
          rw [hfc] at hok
          cases err with
          | some e => cases hok
          | none =>
              dsimp only at hok ⊢
              rcases List.mem_cons.mp hmem with h0 | h0
              · have hv : c'.blocks.data i = v := by
                  have := Hwrite c₀ hL
                  rw [h0, hfc] at this
                  dsimp only at this
                  exact this
                exact runCells_keep f tl i v
                  (fun c cell hm => Hother c cell (List.mem_cons_of_mem hd hm)) c' hv
              · have hL' : c'.blocks.size = L := by
                  have := hsize c₀ hd (List.mem_cons_self hd tl)
                  rw [hfc] at this
                  rw [this, hL]
                exact ih (fun c cell hm => hsize c cell (List.mem_cons_of_mem hd hm))
                  (fun c cell hm => Hother c cell (List.mem_cons_of_mem hd hm))
                  h0 c' hL' hok

/-- C1 (amended): a 0x33 sub-region update writes only under the single
chunk-store key computed from the sub-region's start coordinates by floor
division by 16 (every other key is untouched); the addressed column's four
arrays keep their sizes and its block bytes change only at indices inside the
clipped footprint (so writes never leave the 16-wide/16-deep/128-high
footprint of the addressed chunk, and blocks of a sub-region crossing a chunk
boundary are skipped rather than stored under the neighboring key); when the
loop completes without an exception, every in-bounds cell whose linear index
is inside the block-type slice holds exactly its incoming byte; and for cells
that do not cross the boundary the start-derived key and `start & 15 + offset`
local coordinates agree with per-block floor division and modulo 16/128 of the
absolute coordinates. -/
theorem c1_unpack0x33_single_target (x y_coord z size_x size_y size_z : Int)
    (data : List Nat) (st : ChunkStore) :
    (∀ k : ChunkKey, k ≠ (x / 16, z / 16) →
      storeLookup (unpack0x33 x y_coord z size_x size_y size_z data st).1 k =
        storeLookup st k) ∧
    (∃ col',
      storeLookup (unpack0x33 x y_coord z size_x size_y size_z data st).1
        (x / 16, z / 16) = some col' ∧
      col'.blocks.size = ((storeLookup st (x / 16, z / 16)).getD freshCol).blocks.size ∧
      col'.metadata.size =
        ((storeLookup st (x / 16, z / 16)).getD freshCol).metadata.size ∧
      col'.block_light.size =
        ((storeLookup st (x / 16, z / 16)).getD freshCol).block_light.size ∧
      col'.sky_light.size =
        ((storeLookup st (x / 16, z / 16)).getD freshCol).sky_light.size ∧
      (∀ i : Nat,
        ¬ InFootprint x y_coord z (size_x + 1).toNat (size_y + 1).toNat
            (size_z + 1).toNat i →
        col'.blocks.data i =
          ((storeLookup st (x / 16, z / 16)).getD freshCol).blocks.data i) ∧
      ((unpack0x33 x y_coord z size_x size_y size_z data st).2 = none →
        ((storeLookup st (x / 16, z / 16)).getD freshCol).blocks.size = 16 * 128 * 16 →
        ∀ lx lz ly : Nat, lx < (size_x + 1).toNat → lz < (size_z + 1).toNat →
          ly < (size_y + 1).toNat →
          x % 16 + (lx : Int) < 16 → y_coord % 128 + (ly : Int) < 128 →
          z % 16 + (lz : Int) < 16 →
          ∀ hlen : ly + lz * (size_y + 1).toNat +
              lx * (size_y + 1).toNat * (size_z + 1).toNat <
              (pySlice data 0
                (min ((size_x + 1).toNat * (size_y + 1).toNat * (size_z + 1).toNat)
                  data.length)).length,
            col'.blocks.data
              ((y_coord % 128 + ly) + (z % 16 + lz) * 128 +
                (x % 16 + lx) * 128 * 16).toNat =
              (pySlice data 0
                (min ((size_x + 1).toNat * (size_y + 1).toNat * (size_z + 1).toNat)
                  data.length)).get
                ⟨ly + lz * (size_y + 1).toNat +
                  lx * (size_y + 1).toNat * (size_z + 1).toNat, hlen⟩)) ∧
    (∀ lx : Nat, x % 16 + (lx : Int) < 16 →
      (x + lx) / 16 = x / 16 ∧ (x + lx) % 16 = x % 16 + lx) ∧
    (∀ lz : Nat, z % 16 + (lz : Int) < 16 →
      (z + lz) / 16 = z / 16 ∧ (z + lz) % 16 = z % 16 + lz) ∧
    (∀ ly : Nat, y_coord % 128 + (ly : Int) < 128 →
      (y_coord + ly) % 128 = y_coord % 128 + ly) := by
  unfold unpack0x33
  dsimp only
  refine ⟨?_, ?_, ?_, ?_, ?_⟩
  · intro k hk
    exact storeLookup_insert_ne st (x / 16, z / 16) k _ hk
  · refine ⟨_, storeLookup_insert_self st (x / 16, z / 16) _, ?_, ?_, ?_, ?_, ?_, ?_⟩
    · exact runCells_preserve _ (fun c => c.blocks.size) _
        (fun c cell _ => (mapChunkCell_sizes _ _ _ _ _ _ _ _ _ c cell).1) _
    · exact runCells_preserve _ (fun c => c.metadata.size) _
        (fun c cell _ => (mapChunkCell_sizes _ _ _ _ _ _ _ _ _ c cell).2.1) _
    · exact runCells_preserve _ (fun c => c.block_light.size) _
        (fun c cell _ => (mapChunkCell_sizes _ _ _ _ _ _ _ _ _ c cell).2.2.1) _
    · exact runCells_preserve _ (fun c => c.sky_light.size) _
        (fun c cell _ => (mapChunkCell_sizes _ _ _ _ _ _ _ _ _ c cell).2.2.2) _
    · intro i hi
      refine runCells_preserve _ (fun c => c.blocks.data i) _ ?_ _
      intro c cell hm
      obtain ⟨lx, lz, ly⟩ := cell
      obtain ⟨m1, m2, m3⟩ := regionCells_mem.mp hm
      rcases mapChunkCell_data_or x y_coord z _ _ _ _ _ _ c lx lz ly i with
        h | ⟨_, b2, _, b4, _, b6, heq, _, _⟩
      · exact h
      · exact absurd ⟨lx, m1, lz, m2, ly, m3, b2, b4, b6, heq⟩ hi
    · intro hok hsz lx lz ly hlx hlz hly hbx hby hbz hlen
      have hx0 : (0 : Int) ≤ x % 16 := Int.emod_nonneg x (by norm_num)
      have hy0 : (0 : Int) ≤ y_coord % 128 := Int.emod_nonneg y_coord (by norm_num)
      have hz0 : (0 : Int) ≤ z % 16 := Int.emod_nonneg z (by norm_num)
      refine runCells_write _ _ _
        ((pySlice data 0
          (min ((size_x + 1).toNat * (size_y + 1).toNat * (size_z + 1).toNat)
            data.length)).get
          ⟨ly + lz * (size_y + 1).toNat +
            lx * (size_y + 1).toNat * (size_z + 1).toNat, hlen⟩)
        (16 * 128 * 16)
        (fun c cell _ => (mapChunkCell_sizes _ _ _ _ _ _ _ _ _ c cell).1)
        ?_ (lx, lz, ly) (regionCells_mem.mpr ⟨hlx, hlz, hly⟩) ?_ _ hsz hok
      · intro c cell hm
        obtain ⟨lx', lz', ly'⟩ := cell
        rcases mapChunkCell_data_or x y_coord z _ _ _ _ _ _ c lx' lz' ly'
            ((y_coord % 128 + ly) + (z % 16 + lz) * 128 +
              (x % 16 + lx) * 128 * 16).toNat with
          h | ⟨b1, b2, b3, b4, b5, b6, heq, hl', hv⟩
        · exact Or.inl h
        · right
          have hi0 : (0 : Int) ≤ (y_coord % 128 + ly) + (z % 16 + lz) * 128 +
              (x % 16 + lx) * 128 * 16 := by positivity
          rw [Int.toNat_of_nonneg hi0] at heq
          have hlx' : lx' = lx := by omega
          have hlz' : lz' = lz := by omega
          have hly' : ly' = ly := by omega
          subst hlx' hlz' hly'
          exact hv
      · intro c hc
        refine mapChunkCell_writes x y_coord z _ _ _ _ _ _ c lx lz ly hbx hby hbz hlen ?_
        rw [hc]
        omega
  · intro lx h
    constructor <;> omega
  · intro lz h
    constructor <;> omega
  · intro ly h
    omega

/-- Witness for C1 (amended), at the concrete 2x2x2 origin update: a different
key (5,5) is untouched, and the non-crossing offset arithmetic holds at
offset 1. -/
theorem c1_unpack0x33_single_target_witness :
    (((5, 5) : ChunkKey) ≠ ((0 : Int) / 16, (0 : Int) / 16) ∧
      storeLookup
        (unpack0x33 0 0 0 1 1 1 ([1, 2, 3, 4, 5, 6, 7, 8] ++ List.replicate 12 0) []).1
        (5, 5) = storeLookup [] (5, 5)) ∧
    ((0 : Int) % 16 + ((1 : Nat) : Int) < 16 ∧
      ((0 : Int) + (1 : Nat)) / 16 = (0 : Int) / 16 ∧
      ((0 : Int) + (1 : Nat)) % 16 = (0 : Int) % 16 + (1 : Nat)) :=
  ⟨⟨by decide,
    (c1_unpack0x33_single_target 0 0 0 1 1 1
      ([1, 2, 3, 4, 5, 6, 7, 8] ++ List.replicate 12 0) []).1 (5, 5) (by decide)⟩,
   ⟨by decide,
    (c1_unpack0x33_single_target 0 0 0 1 1 1
      ([1, 2, 3, 4, 5, 6, 7, 8] ++ List.replicate 12 0) []).2.2.1 1 (by decide)⟩⟩

/-- Worker threads of one session. -/
inductive Worker where
  | packetDispatcher : Worker
  | positionSender : Worker
  | keepAliveSender : Worker
deriving DecidableEq, Repr

/-- The threads `connect_and_manage_bot` starts after a login success: the
`handle_server` read loop and the `send_periodic_player_updates` sender, both
daemonized.  No thread is ever started for `send_periodic_keep_alives` in the
source. -/
def spawnedWorkers : List Worker := [.packetDispatcher, .positionSender]

/-- The keep-alive sender's fixed interval parameter, in seconds. -/
def keepAliveInterval : Nat := 15

/-- `keep_alive_id_counter` before the n-th send of
`send_periodic_keep_alives`: starts at 0, increments by one after each send. -/
def keepAliveCounter : Nat → Int
  | 0 => 0
  | n + 1 => keepAliveCounter n + 1

/-- The n-th packet `send_periodic_keep_alives` would send:
`send_packet(sock, 0x00, struct.pack('>i', keep_alive_id_counter))`. -/
def keepAliveNthSend (n : Nat) : Except PErr (List Nat) :=
  (pack_i (keepAliveCounter n)).map (fun d => 0x00 :: d)

theorem keepAliveCounter_eq (n : Nat) : keepAliveCounter n = n := by
  induction n with
  | zero => rfl
  | succ k ih => simp [keepAliveCounter, ih]

/-- C3 counterexample: the session manager does not spawn both heartbeat
workers — the keep-alive sender is absent from the threads started after a
login success. -/
theorem c3_keep_alive_not_spawned : Worker.keepAliveSender ∉ spawnedWorkers := by
  decide

/-- C3 (amended): upon login success the session manager spawns only the
dispatcher's read loop and the position-update sender.  The keep-alive sender
function exists — with a 15-second interval and a 32-bit id incrementing by
one per send, id n in the n-th packet — but no thread ever runs it;
keep-alives reach the server only as the dispatcher's synchronous echoes. -/
theorem c3_spawned_workers :
    spawnedWorkers = [.packetDispatcher, .positionSender] ∧
    Worker.keepAliveSender ∉ spawnedWorkers ∧
    keepAliveInterval = 15 ∧
    (∀ n : Nat, n < 2147483648 → keepAliveNthSend n = .ok (0x00 :: natToBytes4 n)) := by
  refine ⟨rfl, by decide, rfl, ?_⟩
  intro n hn
  rw [keepAliveNthSend, keepAliveCounter_eq]
  unfold pack_i
  rw [if_pos ⟨by omega, by omega⟩]
  have h : (((n : Int)) % 4294967296).toNat = n := by omega
  rw [h]
  rfl

/-- Witness for C3 (amended): the third keep-alive packet carries id 3. -/
theorem c3_spawned_workers_witness :
    (3 : Nat) < 2147483648 ∧ keepAliveNthSend 3 = .ok (0x00 :: natToBytes4 3) :=
  ⟨by decide, c3_spawned_workers.2.2.2 3 (by decide)⟩

/-- The packet identifiers the recorder's `handle_server` has a branch for
(in source order of the `elif` chain, 0xFF last). -/
def knownPacketIds : List Nat :=
  [0x00, 0x03, 0xC8, 0x46, 0x3C, 0x3D, 0x65, 0x67, 0x01, 0x02, 0x04, 0x05, 0x06,
   0x07, 0x08, 0x09, 0x0A, 0x0B, 0x0C, 0x0D, 0x0E, 0x0F, 0x10, 0x11, 0x12, 0x13,
   0x14, 0x15, 0x16, 0x17, 0x18, 0x19, 0x1B, 0x1C, 0x1D, 0x1E, 0x1F, 0x20, 0x21,
   0x22, 0x26, 0x27, 0x28, 0x32, 0x33, 0x34, 0x35, 0x36, 0x47, 0x68, 0xFF]

/-- Loop control of one dispatch step: the loop signal, the value of
`running_client` afterwards, and whether the branch raised an exception. -/
structure DispatchOutcome where
  signal : LoopSignal
  runningAfter : Bool
  raises : Bool
deriving DecidableEq, Repr

/-- The recorder's `handle_server` loop control by packet id: 0xFF logs the
kick reason, clears `running_client` and breaks; every other known id falls
through to the next iteration; an id outside the known set logs an error,
clears `running_client` and breaks without raising. -/
def dispatchControl (pid : Nat) : DispatchOutcome :=
  if pid = 0xFF then ⟨.breakLoop, false, false⟩
  else if pid ∈ knownPacketIds then ⟨.continueLoop, true, false⟩
  else ⟨.breakLoop, false, false⟩

/-- `RECONNECT_DELAY_SECONDS` of the session manager. -/
def RECONNECT_DELAY_SECONDS : Nat := 5

/-- What the connect loop does once a session ends (`running_client` false):
wait the fixed delay, then retry from the top of its `while True`. -/
inductive ManagerAction where
  | waitThenReconnect : Nat → ManagerAction
deriving DecidableEq, Repr

/-- Lines 815-817 of the recorder: sleep `RECONNECT_DELAY_SECONDS`, loop. -/
def managerOnSessionEnd : ManagerAction := .waitThenReconnect RECONNECT_DELAY_SECONDS

/-- C8: a packet identifier outside the known set makes the dispatcher break
its read loop with `running_client` cleared and no exception raised, and the
session manager then waits its fixed 5-second delay before reconnecting. -/
theorem c8_unknown_packet_id (pid : Nat) (h : pid ∉ knownPacketIds) :
    dispatchControl pid =
      { signal := .breakLoop, runningAfter := false, raises := false } ∧
    managerOnSessionEnd = .waitThenReconnect 5 := by
  have hff : pid ≠ 0xFF := fun he => h (he ▸ (by decide : (0xFF : Nat) ∈ knownPacketIds))
  constructor
  · unfold dispatchControl
    rw [if_neg hff, if_neg h]
  · rfl

/-- Witness for C8: the unknown identifier 0x99 from the spec's scenario. -/
theorem c8_unknown_packet_id_witness :
    (0x99 : Nat) ∉ knownPacketIds ∧
    (dispatchControl 0x99 =
      { signal := .breakLoop, runningAfter := false, raises := false } ∧
     managerOnSessionEnd = .waitThenReconnect 5) :=
  ⟨by decide, c8_unknown_packet_id 0x99 (by decide)⟩
